import Mathlib

/-!
Verification development for the WEBXR_To_OSC repository.

Shallow embedding of the client (app.js), the page (index.html) and the
server / OSC router (webxr_osc_server.js).  Real numbers of the JavaScript
runtime are modelled as rationals; machine floating point is not modelled.
The quaternion-to-Euler conversion (THREE.Euler, transcendental) is kept
abstract as a conversion parameter wherever it occurs.
-/

namespace WebXRToOSC

/-! ### Client: angle normalization (app.js, lines 62-67)

```js
function normalizeAngle(angle) {
    while (angle > 180) angle -= 360;
    while (angle < -180) angle += 360;
    return angle;
}
```

The first `while` loop is `wrapDown`, the second is `wrapUp`. -/

/-- First loop of `normalizeAngle`: `while (angle > 180) angle -= 360`. -/
def wrapDown (angle : ℚ) : ℚ :=
  if 180 < angle then wrapDown (angle - 360) else angle
termination_by (Int.ceil (angle - 180)).toNat
decreasing_by
  rename_i h
  have h1 : (0:ℤ) < Int.ceil (angle - 180) := by
    rw [Int.ceil_pos]; linarith
  have h2 : Int.ceil (angle - 360 - 180) = Int.ceil (angle - 180) - 360 := by
    have he : angle - 360 - 180 = (angle - 180) - ((360 : ℤ) : ℚ) := by push_cast; ring
    rw [he, Int.ceil_sub_int]
  omega

/-- Second loop of `normalizeAngle`: `while (angle < -180) angle += 360`. -/
def wrapUp (angle : ℚ) : ℚ :=
  if angle < -180 then wrapUp (angle + 360) else angle
termination_by (Int.ceil (-angle - 180)).toNat
decreasing_by
  rename_i h
  have h1 : (0:ℤ) < Int.ceil (-angle - 180) := by
    rw [Int.ceil_pos]; linarith
  have h2 : Int.ceil (-(angle + 360) - 180) = Int.ceil (-angle - 180) - 360 := by
    have he : -(angle + 360) - 180 = (-angle - 180) - ((360 : ℤ) : ℚ) := by push_cast; ring
    rw [he, Int.ceil_sub_int]
  omega

/-- `normalizeAngle` from app.js: both loops in sequence. -/
def normalizeAngle (angle : ℚ) : ℚ := wrapUp (wrapDown angle)

/-! ### Client: wire messages and `sendOSCData` (app.js, lines 397-436)

Positions and quaternions are rational triples/quadruples.  The conversion
`quaternionToEulerDegrees` (app.js lines 52-60, THREE.Euler YXZ order plus
`*180/PI`) is transcendental and is kept abstract as a parameter `q2e`
returning `(yaw, pitch, roll)` in degrees.  The JS coercion
`Number(x) || 0` is the identity on the rationals (no NaN in the model). -/

abbrev V3 := ℚ × ℚ × ℚ

abbrev Quat := ℚ × ℚ × ℚ × ℚ

/-- A JSON envelope sent over the WebSocket: `{ address, args }`. -/
structure WireMsg where
  address : List Char
  args : List ℚ
deriving DecidableEq

/-- `/hmd/pose` as used in app.js. -/
def hmdAddress : List Char := "/hmd/pose".toList

/-- The template literal address for controller `i` in app.js. -/
def controllerAddress (i : ℕ) : List Char :=
  ("/controller" ++ toString i ++ "/pose").toList

/-- `sendOSCData(address, position, orientation, btnPressed)` (app.js lines
397-436).  The `socket.readyState` pre-check is modelled at the call sites
(both callers check it before calling).  Returns the wire message built. -/
def sendOSCData (q2e : Quat → V3) (address : List Char) (position : V3)
    (orientation : Quat) (btnPressed : Bool) : WireMsg :=
  let e := q2e orientation
  let yaw := normalizeAngle e.1
  let pitch := normalizeAngle e.2.1
  let roll := normalizeAngle e.2.2
  let args := [position.1, position.2.1, position.2.2, yaw, pitch, roll]
  let args := if ("/controller".toList).isPrefixOf address
    then args ++ [if btnPressed then 1 else 0] else args
  ⟨address, args⟩

/-! ### Client: the frame-driven sampler `renderXRFrame` (app.js, lines 258-363) -/

/-- One XR input source: gamepad button `pressed` flags, whether a grip
space exists, and the grip pose for the current frame (`frame.getPose`). -/
structure InputSource where
  buttons : List Bool
  hasGripSpace : Bool
  gripPose : Option (V3 × Quat)
deriving DecidableEq

/-- One animation-loop frame: the timestamp `Date.now()` and the poses the
XR frame exposes. -/
structure FrameIn where
  time : ℤ
  viewerPose : Option (V3 × Quat)
  sources : List InputSource
deriving DecidableEq

/-- Client-side mutable state relevant to throttling: `oscEnabled`,
the WebSocket being OPEN, and `lastOSCSendTime`. -/
structure ClientState where
  oscEnabled : Bool
  socketOpen : Bool
  lastOSCSendTime : ℤ
deriving DecidableEq

/-- Target of an `updateDisplay` call. -/
inductive DispId
  | hmd
  | ctrl (i : ℕ)
deriving DecidableEq

/-- One `updateDisplay(id, pos, euler, btnPressed)` call (app.js lines
365-395).  `rotDeg` is the displayed Euler angles in degrees; `btn` is
`some b` for controller rows (HMD rows have no button element). -/
structure DisplayUpdate where
  id : DispId
  pos : V3
  rotDeg : V3
  btn : Option Bool
deriving DecidableEq

/-- app.js line 392: `btnPressed ? "Pressed" : "Released"`. -/
def buttonText (btnPressed : Bool) : List Char :=
  if btnPressed then "Pressed".toList else "Released".toList

/-- `OSC_SEND_INTERVAL` (app.js line 8). -/
def OSC_SEND_INTERVAL : ℤ := 32

/-- The body of the controller loop in `renderXRFrame` (app.js lines
299-347) for input source `src` at index `i`: the wire messages sent and
the display update performed. -/
def processController (q2e : Quat → V3) (shouldSendOSC : Bool) (i : ℕ)
    (src : InputSource) : List WireMsg × DisplayUpdate :=
  let btnPressed := (src.buttons.take 6).any (fun b => b)
  match src.hasGripSpace, src.gripPose with
  | true, some (pos, quat) =>
    ((if shouldSendOSC then [sendOSCData q2e (controllerAddress i) pos quat btnPressed] else []),
     ⟨.ctrl i, pos, q2e quat, some btnPressed⟩)
  | true, none => ([], ⟨.ctrl i, (0,0,0), (0,0,0), some false⟩)
  | false, _ => ([], ⟨.ctrl i, (0,0,0), (0,0,0), some false⟩)

/-- The controller loop `for (i = 0; i < inputSources.length && i < 2; i++)`
(`controllerMarkers.length` is 2), carrying the running index. -/
def processControllers (q2e : Quat → V3) (shouldSendOSC : Bool) :
    ℕ → List InputSource → List (List WireMsg × DisplayUpdate)
  | _, [] => []
  | i, src :: rest =>
    if i < 2 then
      processController q2e shouldSendOSC i src ::
        processControllers q2e shouldSendOSC (i + 1) rest
    else []

/-- The HMD block of `renderXRFrame` (app.js lines 272-296): the wire
messages it sends (display handled separately below). -/
def hmdFrameMsgs (q2e : Quat → V3) (shouldSendOSC : Bool)
    (pose : Option (V3 × Quat)) : List WireMsg :=
  match pose with
  | some pq => if shouldSendOSC then [sendOSCData q2e hmdAddress pq.1 pq.2 false] else []
  | none => []

/-- `renderXRFrame` (app.js lines 258-363): returns the new client state,
the wire messages sent this frame, and the display updates performed.
`shouldSendOSC` is computed once per frame; `lastOSCSendTime` is updated
after processing all devices iff `shouldSendOSC` held.  The trailing loop
(lines 350-355) drives the display of unconnected controllers to zero. -/
def renderXRFrame (q2e : Quat → V3) (st : ClientState) (f : FrameIn) :
    ClientState × List WireMsg × List DisplayUpdate :=
  let shouldSendOSC := st.oscEnabled && st.socketOpen &&
    decide (OSC_SEND_INTERVAL ≤ f.time - st.lastOSCSendTime)
  let hmdOut : List WireMsg × List DisplayUpdate :=
    match f.viewerPose with
    | some (pos, quat) =>
      ((if shouldSendOSC then [sendOSCData q2e hmdAddress pos quat false] else []),
       [⟨.hmd, pos, q2e quat, none⟩])
    | none => ([], [])
  let ctrl := processControllers q2e shouldSendOSC 0 f.sources
  let hides := ((List.range 2).drop f.sources.length).map
    (fun i => (⟨.ctrl i, (0,0,0), (0,0,0), some false⟩ : DisplayUpdate))
  ({ st with lastOSCSendTime := if shouldSendOSC then f.time else st.lastOSCSendTime },
   hmdOut.1 ++ ctrl.flatMap (fun x => x.1),
   hmdOut.2 ++ ctrl.map (fun x => x.2) ++ hides)

/-- A run of the XR animation loop: the per-frame wire-message batches,
each stamped with the frame's time. -/
def runFrames (q2e : Quat → V3) (st : ClientState) :
    List FrameIn → List (ℤ × List WireMsg)
  | [] => []
  | f :: fs =>
    let out := renderXRFrame q2e st f
    (f.time, out.2.1) :: runFrames q2e out.1 fs

/-! ### Client: the clock-driven sampler (app.js, lines 556-597)

`startDataSampling` installs a 60 Hz `setInterval` callback which, outside
an XR session, reads the preview markers and sends one message per present
marker whenever `oscEnabled && socket.readyState === OPEN` — with **no**
minimum-interval check and without touching `lastOSCSendTime`.  Display
updates performed by the callback are UI-only and not modelled here. -/

/-- Preview scene markers read by `getCurrentHMDPose` /
`getCurrentControllerPose` (app.js lines 533-554). -/
structure PreviewState where
  hmdMarker : Option (V3 × Quat)
  ctrlMarker0 : Option (V3 × Quat)
  ctrlMarker1 : Option (V3 × Quat)
deriving DecidableEq

/-- `getCurrentHMDPose` (app.js lines 533-542). -/
def getCurrentHMDPose (p : PreviewState) : Option (V3 × Quat) := p.hmdMarker

/-- `getCurrentControllerPose(idx)` (app.js lines 544-554): pose of the
marker with `btn: false`. -/
def getCurrentControllerPose (p : PreviewState) (idx : ℕ) : Option (V3 × Quat × Bool) :=
  (if idx = 0 then p.ctrlMarker0 else p.ctrlMarker1).map (fun pq => (pq.1, pq.2, false))

/-- One tick of the `setInterval` callback installed by `startDataSampling`
(app.js lines 563-596): the wire messages sent.  `inXRPresenting` is the
early-return guard for an active XR session. -/
def dataSamplingTick (q2e : Quat → V3) (st : ClientState) (prev : PreviewState)
    (inXRPresenting : Bool) : List WireMsg :=
  if inXRPresenting then [] else
    (match getCurrentHMDPose prev with
     | some (pos, quat) =>
       if st.oscEnabled && st.socketOpen then [sendOSCData q2e hmdAddress pos quat false]
       else []
     | none => []) ++
    (List.range 2).flatMap (fun i =>
      match getCurrentControllerPose prev i with
      | some (pos, quat, btn) =>
        if st.oscEnabled && st.socketOpen then [sendOSCData q2e (controllerAddress i) pos quat btn]
        else []
      | none => [])

/-- A run of the clock-driven sampler outside XR: each tick is stamped with
its wall-clock time (the callback itself never reads the clock). -/
def runClock (q2e : Quat → V3) (st : ClientState)
    (ticks : List (ℤ × PreviewState)) : List (ℤ × List WireMsg) :=
  ticks.map (fun tp => (tp.1, dataSamplingTick q2e st tp.2 false))

/-! ### Throttle-gate analysis

`sendTimes last ts` is the subsequence of tick times at which the gate
`time - lastOSCSendTime >= OSC_SEND_INTERVAL` opens, with the
`lastOSCSendTime` update of `renderXRFrame`. -/

/-- Times at which the shared throttle gate opens, for a tick-time
sequence, starting from `lastOSCSendTime = last`. -/
def sendTimes (last : ℤ) : List ℤ → List ℤ
  | [] => []
  | t :: ts =>
    if OSC_SEND_INTERVAL ≤ t - last then t :: sendTimes t ts
    else sendTimes last ts

/-- Number of messages, among a timestamped batch list, falling in the
1-second window `[a, a+1000)`. -/
def timedCount (out : List (ℤ × List WireMsg)) (a : ℤ) : ℕ :=
  (out.flatMap (fun p => p.2.map (fun _ => p.1))).countP
    (fun t => decide (a ≤ t ∧ t < a + 1000))

/-- Number of messages bearing a given address — i.e. belonging to one
stream — among a timestamped batch list, falling in the 1-second window
`[a, a+1000)`. -/
def addrTimedCount (out : List (ℤ × List WireMsg)) (addr : List Char) (a : ℤ) : ℕ :=
  (out.flatMap
    (fun p => (p.2.filter (fun m => m.address == addr)).map (fun _ => p.1))).countP
    (fun t => decide (a ≤ t ∧ t < a + 1000))

/-! ### Client: WebSocket transport (app.js, lines 69-117)

`initWebSocket` refuses to open a second socket while one is OPEN or
CONNECTING; `socket.onclose` schedules exactly one `initWebSocket` retry
after a fixed 3000 ms; `socket.onerror` only updates the status display
and schedules nothing (reconnection happens via the close event that
follows an error in the browser WebSocket lifecycle). -/

/-- Browser `WebSocket.readyState` values. -/
inductive WSReadyState
  | CONNECTING
  | OPEN
  | CLOSING
  | CLOSED
deriving DecidableEq

/-- Client networking state: the configured `SERVER_URL`, the `socket`
variable (with its ready state) and the pending `setTimeout(initWebSocket, …)`
delays. -/
structure ClientNet where
  serverUrl : Option (List Char)
  socket : Option WSReadyState
  reconnectTimers : List ℕ
deriving DecidableEq

/-- `initWebSocket` (app.js lines 70-85): early-returns without a URL or
while the socket is OPEN or CONNECTING; otherwise constructs a new
`WebSocket` (state CONNECTING). -/
def initWebSocket (st : ClientNet) : ClientNet :=
  match st.serverUrl with
  | none => st
  | some _ =>
    match st.socket with
    | some s =>
      if s = WSReadyState.OPEN || s = WSReadyState.CONNECTING then st
      else { st with socket := some WSReadyState.CONNECTING }
    | none => { st with socket := some WSReadyState.CONNECTING }

/-- `socket.onopen` (app.js lines 87-95): status display only. -/
def wsOnOpen (st : ClientNet) : ClientNet :=
  { st with socket := some WSReadyState.OPEN }

/-- `socket.onclose` (app.js lines 97-106): the socket is now CLOSED and
`setTimeout(initWebSocket, 3000)` schedules exactly one retry. -/
def wsOnClose (st : ClientNet) : ClientNet :=
  { st with socket := some WSReadyState.CLOSED,
            reconnectTimers := st.reconnectTimers ++ [3000] }

/-- `socket.onerror` (app.js lines 108-116): updates the status display
and error message only; no state change, no timer. -/
def wsOnError (st : ClientNet) : ClientNet := st

/-! ### Server: JavaScript values and `parseFloat` (webxr_osc_server.js)

Incoming WebSocket payloads are JSON, so an argument can be a number, a
string, a boolean, null or an array (JSON has no undefined/NaN literal,
but the model keeps them since the handler code is written against general
JS values).  `parseFloatStr` models `parseFloat` on strings: leading
whitespace, an optional sign, `Infinity`, or a decimal mantissa with an
optional `e`/`E` exponent, parsing the longest valid leading portion. -/

/-- The numeric result of `parseFloat`: a finite rational, NaN or ±Infinity. -/
inductive JSNum
  | finite (q : ℚ)
  | nan
  | posInf
  | negInf
deriving DecidableEq

/-- A JavaScript value as far as the server handlers inspect one. -/
inductive JSVal
  | num (q : ℚ)
  | nan
  | inf
  | ninf
  | str (s : List Char)
  | boolean (b : Bool)
  | null
  | undef
  | arr (elems : List JSVal)

/-- Whitespace skipped by `parseFloat` (common forms). -/
def jsWhitespace (c : Char) : Bool :=
  c = ' ' || c = '\t' || c = '\n' || c = '\r'

/-- Value of a digit string. -/
def digitsVal (ds : List Char) : ℕ :=
  ds.foldl (fun acc c => acc * 10 + (c.toNat - '0'.toNat)) 0

/-- Parse a decimal mantissa `digits[.digits]`; `none` when no digit is
present.  Returns the value and the unconsumed remainder. -/
def parseMantissa (r : List Char) : Option (ℚ × List Char) :=
  let ds := r.takeWhile Char.isDigit
  let r2 := r.drop ds.length
  match r2 with
  | '.' :: r3 =>
    let fs := r3.takeWhile Char.isDigit
    if ds = [] ∧ fs = [] then none
    else some ((digitsVal ds : ℚ) + (digitsVal fs : ℚ) / (10 : ℚ) ^ fs.length,
      r3.drop fs.length)
  | _ => if ds = [] then none else some ((digitsVal ds : ℚ), r2)

/-- Parse an optionally signed digit run (the exponent digits); `0` when
no digit follows, matching `parseFloat("1e") = 1`. -/
def parseSignedDigits (r : List Char) : ℤ :=
  match r with
  | '+' :: r1 =>
    let ds := r1.takeWhile Char.isDigit
    if ds = [] then 0 else (digitsVal ds : ℤ)
  | '-' :: r1 =>
    let ds := r1.takeWhile Char.isDigit
    if ds = [] then 0 else -(digitsVal ds : ℤ)
  | _ =>
    let ds := r.takeWhile Char.isDigit
    if ds = [] then 0 else (digitsVal ds : ℤ)

/-- Parse an optional `e`/`E` exponent. -/
def parseExponent (r : List Char) : ℤ :=
  match r with
  | 'e' :: r1 => parseSignedDigits r1
  | 'E' :: r1 => parseSignedDigits r1
  | _ => 0

/-- `parseFloat` on a string. -/
def parseFloatStr (s : List Char) : JSNum :=
  let s1 := s.dropWhile jsWhitespace
  match s1 with
  | '+' :: r =>
    if ("Infinity".toList).isPrefixOf r then JSNum.posInf
    else
      match parseMantissa r with
      | none => JSNum.nan
      | some (m, rest) => JSNum.finite (m * (10 : ℚ) ^ parseExponent rest)
  | '-' :: r =>
    if ("Infinity".toList).isPrefixOf r then JSNum.negInf
    else
      match parseMantissa r with
      | none => JSNum.nan
      | some (m, rest) => JSNum.finite (-(m * (10 : ℚ) ^ parseExponent rest))
  | r =>
    if ("Infinity".toList).isPrefixOf r then JSNum.posInf
    else
      match parseMantissa r with
      | none => JSNum.nan
      | some (m, rest) => JSNum.finite (m * (10 : ℚ) ^ parseExponent rest)

/-- `parseFloat(v)` for a general value: numbers pass through, everything
else is coerced to its string form first.  For arrays, `String(arr)` joins
the elements with commas, so the parse is that of the first element
(`parseFloat` stops at the comma); booleans, null and undefined stringify
to non-numeric text. -/
def jsParseFloat : JSVal → JSNum
  | .num q => .finite q
  | .nan => .nan
  | .inf => .posInf
  | .ninf => .negInf
  | .str s => parseFloatStr s
  | .boolean _ => .nan
  | .null => .nan
  | .undef => .nan
  | .arr [] => .nan
  | .arr (v :: _) => jsParseFloat v

/-- The filter predicate of `handleOSCMessage` (webxr_osc_server.js lines
268-271): `const num = parseFloat(arg); return !isNaN(num) && isFinite(num)`. -/
def isFiniteNumber (v : JSVal) : Bool :=
  match jsParseFloat v with
  | .finite _ => true
  | _ => false

/-- `typeof v === 'string'`. -/
def isStringVal : JSVal → Bool
  | .str _ => true
  | _ => false

/-- JavaScript falsiness (`!v`). -/
def jsFalsy : JSVal → Bool
  | .num q => decide (q = 0)
  | .nan => true
  | .inf => false
  | .ninf => false
  | .str s => s.isEmpty
  | .boolean b => !b
  | .null => true
  | .undef => true
  | .arr _ => false

/-- The character content of a string value. -/
def strContent : JSVal → List Char
  | .str s => s
  | _ => []

/-- A parsed WebSocket message `{ address, args }` as destructured by
`handleOSCMessage`. -/
structure OSCMsgIn where
  address : JSVal
  args : JSVal

/-- `handleOSCMessage(msg)` (webxr_osc_server.js lines 253-300): validity
checks, numeric filtering, then `sendOSC(address, validArgs)`.  The result
is what is handed to `sendOSC` (`none` when the message is dropped); the
button-state logging block has no effect on the data flow. -/
def handleOSCMessage (msg : OSCMsgIn) : Option (List Char × List JSVal) :=
  if jsFalsy msg.address || !(isStringVal msg.address) then none
  else
    match msg.args with
    | .arr l => some (strContent msg.address, l.filter isFiniteNumber)
    | _ => none

/-! ### Server: device channels (webxr_osc_server.js, lines 14-250) -/

/-- The three logical devices. -/
inductive DeviceType
  | HMD
  | CONTROLLER0
  | CONTROLLER1
deriving DecidableEq

/-- `OSC_PORTS` (webxr_osc_server.js lines 15-19). -/
def OSC_PORTS : DeviceType → ℕ
  | .HMD => 7400
  | .CONTROLLER0 => 7401
  | .CONTROLLER1 => 7402

/-- `Object.keys(OSC_PORTS)` in iteration order. -/
def allDevices : List DeviceType :=
  [DeviceType.HMD, DeviceType.CONTROLLER0, DeviceType.CONTROLLER1]

/-- `getDeviceTypeFromAddress(address)` (webxr_osc_server.js lines 140-149). -/
def getDeviceTypeFromAddress (address : List Char) : DeviceType :=
  if ("/hmd".toList).isPrefixOf address then DeviceType.HMD
  else if ("/controller0".toList).isPrefixOf address then DeviceType.CONTROLLER0
  else if ("/controller1".toList).isPrefixOf address then DeviceType.CONTROLLER1
  else DeviceType.HMD

/-- A pending `setTimeout` callback on the server. -/
inductive ServerTimer
  | reconnectDev (d : DeviceType)
  | initConn
deriving DecidableEq

/-- Server-side mutable state: `oscConnected` per device, whether
`oscUDPPorts[d]` is non-null, the shared `oscMessageCount` /
`oscErrorCount` / `lastOSCError`, the `messageStats` counters
(`lastTime` wall-clock stamps are not modelled), and pending timers. -/
structure ServerState where
  oscConnected : DeviceType → Bool
  oscPortExists : DeviceType → Bool
  oscMessageCount : ℕ
  oscErrorCount : ℕ
  lastOSCError : Option (List Char)
  statsHmd : ℕ
  statsController0 : ℕ
  statsController1 : ℕ
  timers : List (ℕ × ServerTimer)

/-- A UDP datagram as built by `sendOSC`: each argument is tagged
`type:'f'` with value `isNaN(parseFloat(v)) ? 0.0 : parseFloat(v)`. -/
structure OSCPacket where
  address : List Char
  args : List JSNum
deriving DecidableEq

/-- The argument coercion of `sendOSC`. -/
def coerceArg (v : JSVal) : JSNum :=
  match jsParseFloat v with
  | .nan => .finite 0
  | x => x

/-- `hay.includes(needle)`: contiguous-substring containment, as used by
`updateMessageStats`. -/
def includesSeq (hay needle : List Char) : Bool :=
  match hay with
  | [] => needle.isEmpty
  | _ :: rest => needle.isPrefixOf hay || includesSeq rest needle

/-- `updateMessageStats(address)` (webxr_osc_server.js lines 214-225);
keyed by substring containment, default `hmd`. -/
def updateMessageStats (st : ServerState) (address : List Char) : ServerState :=
  if includesSeq address ("controller0".toList) then
    { st with statsController0 := st.statsController0 + 1 }
  else if includesSeq address ("controller1".toList) then
    { st with statsController1 := st.statsController1 + 1 }
  else { st with statsHmd := st.statsHmd + 1 }

/-- The per-device body of `reconnectOSC`: close and null out the port,
clear the connected flag. -/
def closeDevice (st : ServerState) (d : DeviceType) : ServerState :=
  { st with
    oscPortExists := fun e => if e = d then false else st.oscPortExists e,
    oscConnected := fun e => if e = d then false else st.oscConnected e }

/-- `reconnectOSC(deviceType)` (webxr_osc_server.js lines 120-137): tear
down the targeted device(s) (all of them when called with no argument) and
schedule one `setTimeout(initOSCConnection, 1000)`. -/
def reconnectOSC (dOpt : Option DeviceType) (st : ServerState) : ServerState :=
  let targets := match dOpt with | some d => [d] | none => allDevices
  let st1 := targets.foldl closeDevice st
  { st1 with timers := st1.timers ++ [(1000, ServerTimer.initConn)] }

/-- `sendOSC(address, args)` (webxr_osc_server.js lines 152-211).
`sendErr` is the outcome of the OS-level `udpPort.send` (`some msg` when
it throws with message `msg`).  Returns the JS return value, the new
state, and the datagram transmitted (if any).  When the device's channel
is not connected or has no port, it returns `false` without touching any
state and without queueing anything. -/
def sendOSC (st : ServerState) (address : List Char) (args : List JSVal)
    (sendErr : Option (List Char)) : Bool × ServerState × Option OSCPacket :=
  let deviceType := getDeviceTypeFromAddress address
  if !(st.oscConnected deviceType && st.oscPortExists deviceType) then
    (false, st, none)
  else
    match sendErr with
    | none =>
      let st1 := { st with oscMessageCount := st.oscMessageCount + 1 }
      (true, updateMessageStats st1 address, some ⟨address, args.map coerceArg⟩)
    | some emsg =>
      let st1 := { st with oscErrorCount := st.oscErrorCount + 1,
                           lastOSCError := some emsg }
      if 10 < st1.oscErrorCount then (false, reconnectOSC (some deviceType) st1, none)
      else (false, st1, none)

/-- The `ready` handler installed by `initOSCConnection` (lines 84-90). -/
def onOscReady (st : ServerState) (d : DeviceType) : ServerState :=
  { st with oscConnected := fun e => if e = d then true else st.oscConnected e }

/-- The `error` handler installed by `initOSCConnection` (lines 92-103):
the device's channel state becomes disconnected, the shared error counter
advances, and exactly one `reconnectOSC(deviceType)` is scheduled after a
fixed 5000 ms. -/
def onOscError (st : ServerState) (d : DeviceType) (emsg : List Char) : ServerState :=
  { st with
    oscConnected := fun e => if e = d then false else st.oscConnected e,
    oscErrorCount := st.oscErrorCount + 1,
    lastOSCError := some emsg,
    timers := st.timers ++ [(5000, ServerTimer.reconnectDev d)] }

/-- The `close` handler installed by `initOSCConnection` (lines 105-108). -/
def onOscClose (st : ServerState) (d : DeviceType) : ServerState :=
  { st with oscConnected := fun e => if e = d then false else st.oscConnected e }

/-- `initOSCConnection()` (webxr_osc_server.js lines 63-117): for each
device, skip it when its port already exists, otherwise create the port
(the `ready` event that later sets `oscConnected` is a separate step). -/
def initOSCConnection (st : ServerState) : ServerState :=
  allDevices.foldl
    (fun s d =>
      if s.oscPortExists d then s
      else { s with oscPortExists := fun e => if e = d then true else s.oscPortExists e })
    st

/-! ### Concrete test fixtures -/

/-- A concrete placeholder quaternion-to-Euler conversion (identity pose). -/
def q2e0 : Quat → V3 := fun _ => (0, 0, 0)

/-- A conversion landing on yaw 270°, exercising normalization. -/
def q2e270 : Quat → V3 := fun _ => (270, 0, 0)

/-- Preview scene with an HMD marker only. -/
def cexPrev : PreviewState := ⟨some ((0, 0, 0), (0, 0, 0, 1)), none, none⟩

/-- Streaming enabled, socket open, `lastOSCSendTime = 0`. -/
def cexSt : ClientState := ⟨true, true, 0⟩

/-- 33 clock-driven sampler ticks 16 ms apart (62.5 Hz), all within one
second, each with the HMD marker present. -/
def cexTicks : List (ℤ × PreviewState) :=
  (List.range 33).map (fun k => ((16 * (k : ℤ)), cexPrev))

/-- Three HMD-only frames at t = 0 ms, 10 ms, 35 ms. -/
def cexFrames : List FrameIn :=
  [⟨0, some ((0, (8/5 : ℚ), 0), (0, 0, 0, 1)), []⟩,
   ⟨10, some ((0, (8/5 : ℚ), 0), (0, 0, 0, 1)), []⟩,
   ⟨35, some ((0, (8/5 : ℚ), 0), (0, 0, 0, 1)), []⟩]

/-- One frame at t = 100 ms with an HMD pose and one controller whose grip
space exists but whose grip pose is absent this tick. -/
def cexFrame : FrameIn := ⟨100, some ((0, (8/5 : ℚ), 0), (0, 0, 0, 1)), [⟨[], true, none⟩]⟩

/-- Eleven frames 32 ms apart (31.25 Hz) at t = 32, 64, …, 352 ms, each
with a live HMD pose and two live controllers: every frame opens the
throttle gate and transmits three wire messages. -/
def cexFramesMulti : List FrameIn :=
  (List.range 11).map (fun k =>
    ⟨32 * ((k : ℤ) + 1), some ((0, (8/5 : ℚ), 0), (0, 0, 0, 1)),
     [⟨[], true, some ((0, 0, 0), (0, 0, 0, 1))⟩,
      ⟨[], true, some ((0, 0, 0), (0, 0, 0, 1))⟩]⟩)

/-- Server with every device channel Ready and no errors so far. -/
def stReady : ServerState := ⟨fun _ => true, fun _ => true, 0, 0, none, 0, 0, 0, []⟩

/-- Server with every device channel down. -/
def stDown : ServerState := ⟨fun _ => false, fun _ => false, 0, 0, none, 0, 0, 0, []⟩

/-- One send whose OS-level UDP transmission fails. -/
def failStep (addr : List Char) (st : ServerState) : ServerState :=
  (sendOSC st addr [JSVal.num 1] (some ("EHOSTUNREACH".toList))).2.1

/-- Run A: ten CONTROLLER0 send failures, then one HMD send failure. -/
def c9runA : ServerState :=
  failStep ("/hmd/pose".toList) ((failStep ("/controller0/pose".toList))^[10] stReady)

/-- Run B: the same single HMD send failure from the same initial state. -/
def c9runB : ServerState := failStep ("/hmd/pose".toList) stReady

/-! ## Lemmas -/

lemma wrapDown_le_aux : ∀ (n : ℕ) (a : ℚ), (Int.ceil (a - 180)).toNat ≤ n → wrapDown a ≤ 180 := by
  intro n
  induction n with
  | zero =>
    intro a hm
    have hle : Int.ceil (a - 180) ≤ 0 := by omega
    have : a - 180 ≤ ((0:ℤ):ℚ) := Int.ceil_le.mp hle
    rw [wrapDown.eq_def, if_neg (by push_cast at this; linarith)]
    push_cast at this; linarith
  | succ n ih =>
    intro a hm
    by_cases h : (180:ℚ) < a
    · rw [wrapDown.eq_def, if_pos h]
      apply ih
      have h1 : (0:ℤ) < Int.ceil (a - 180) := by rw [Int.ceil_pos]; linarith
      have h2 : Int.ceil (a - 360 - 180) = Int.ceil (a - 180) - 360 := by
        have he : a - 360 - 180 = (a - 180) - ((360 : ℤ) : ℚ) := by push_cast; ring
        rw [he, Int.ceil_sub_int]
      omega
    · rw [wrapDown.eq_def, if_neg h]; linarith

lemma wrapDown_le (a : ℚ) : wrapDown a ≤ 180 :=
  wrapDown_le_aux (Int.ceil (a - 180)).toNat a le_rfl

lemma wrapUp_ge_aux : ∀ (n : ℕ) (a : ℚ), (Int.ceil (-a - 180)).toNat ≤ n → -180 ≤ wrapUp a := by
  intro n
  induction n with
  | zero =>
    intro a hm
    have hle : Int.ceil (-a - 180) ≤ 0 := by omega
    have : -a - 180 ≤ ((0:ℤ):ℚ) := Int.ceil_le.mp hle
    rw [wrapUp.eq_def, if_neg (by push_cast at this; linarith)]
    push_cast at this; linarith
  | succ n ih =>
    intro a hm
    by_cases h : a < -180
    · rw [wrapUp.eq_def, if_pos h]
      apply ih
      have h1 : (0:ℤ) < Int.ceil (-a - 180) := by rw [Int.ceil_pos]; linarith
      have h2 : Int.ceil (-(a + 360) - 180) = Int.ceil (-a - 180) - 360 := by
        have he : -(a + 360) - 180 = (-a - 180) - ((360 : ℤ) : ℚ) := by push_cast; ring
        rw [he, Int.ceil_sub_int]
      omega
    · rw [wrapUp.eq_def, if_neg h]; linarith

lemma wrapUp_ge (a : ℚ) : -180 ≤ wrapUp a :=
  wrapUp_ge_aux (Int.ceil (-a - 180)).toNat a le_rfl

lemma wrapUp_le_aux : ∀ (n : ℕ) (a : ℚ), (Int.ceil (-a - 180)).toNat ≤ n → a ≤ 180 → wrapUp a ≤ 180 := by
  intro n
  induction n with
  | zero =>
    intro a hm ha
    have hle : Int.ceil (-a - 180) ≤ 0 := by omega
    have : -a - 180 ≤ ((0:ℤ):ℚ) := Int.ceil_le.mp hle
    rw [wrapUp.eq_def, if_neg (by push_cast at this; linarith)]
    exact ha
  | succ n ih =>
    intro a hm ha
    by_cases h : a < -180
    · rw [wrapUp.eq_def, if_pos h]
      apply ih
      · have h1 : (0:ℤ) < Int.ceil (-a - 180) := by rw [Int.ceil_pos]; linarith
        have h2 : Int.ceil (-(a + 360) - 180) = Int.ceil (-a - 180) - 360 := by
          have he : -(a + 360) - 180 = (-a - 180) - ((360 : ℤ) : ℚ) := by push_cast; ring
          rw [he, Int.ceil_sub_int]
        omega
      · linarith
    · rw [wrapUp.eq_def, if_neg h]; exact ha

lemma wrapUp_le (a : ℚ) (ha : a ≤ 180) : wrapUp a ≤ 180 :=
  wrapUp_le_aux (Int.ceil (-a - 180)).toNat a le_rfl ha

lemma normalizeAngle_ge (a : ℚ) : -180 ≤ normalizeAngle a := wrapUp_ge _

lemma normalizeAngle_le (a : ℚ) : normalizeAngle a ≤ 180 :=
  wrapUp_le _ (wrapDown_le a)

lemma normalizeAngle_270 : normalizeAngle (270 : ℚ) = -90 := by
  have h1 : wrapDown (270 : ℚ) = wrapDown (-90) := by
    rw [wrapDown.eq_def]; norm_num
  have h2 : wrapDown (-90 : ℚ) = -90 := by
    rw [wrapDown.eq_def]; norm_num
  have h3 : wrapUp (-90 : ℚ) = -90 := by
    rw [wrapUp.eq_def]; norm_num
  unfold normalizeAngle
  rw [h1, h2, h3]

lemma normalizeAngle_neg180 : normalizeAngle (-180 : ℚ) = -180 := by
  have h1 : wrapDown (-180 : ℚ) = -180 := by
    rw [wrapDown.eq_def]; norm_num
  have h2 : wrapUp (-180 : ℚ) = -180 := by
    rw [wrapUp.eq_def]; norm_num
  unfold normalizeAngle
  rw [h1, h2]

lemma sendTimes_ge (ts : List ℤ) : ∀ (last : ℤ), ∀ u ∈ sendTimes last ts, last + 32 ≤ u := by
  induction ts with
  | nil => intro last u hu; simp [sendTimes] at hu
  | cons t ts ih =>
    intro last u hu
    rw [sendTimes] at hu
    by_cases h : OSC_SEND_INTERVAL ≤ t - last
    · rw [if_pos h] at hu
      rcases List.mem_cons.mp hu with rfl | hu
      · unfold OSC_SEND_INTERVAL at h; omega
      · have := ih t u hu
        unfold OSC_SEND_INTERVAL at h; omega
    · rw [if_neg h] at hu
      exact ih last u hu

lemma sendTimes_pairwise (ts : List ℤ) :
    ∀ (last : ℤ), (sendTimes last ts).Pairwise (fun x y => x + 32 ≤ y) := by
  induction ts with
  | nil => intro last; simp [sendTimes]
  | cons t ts ih =>
    intro last
    rw [sendTimes]
    by_cases h : OSC_SEND_INTERVAL ≤ t - last
    · rw [if_pos h]
      exact List.pairwise_cons.mpr ⟨fun u hu => sendTimes_ge ts t u hu, ih t⟩
    · rw [if_neg h]
      exact ih last

lemma pairwise_countP_le (l : List ℤ) :
    ∀ (m : ℕ) (b : ℤ), l.Pairwise (fun x y => x + 32 ≤ y) → (∀ x ∈ l, b ≤ x) →
      l.countP (fun t => decide (t < b + 32 * (m : ℤ))) ≤ m := by
  induction l with
  | nil => intro m b _ _; simp
  | cons x xs ih =>
    intro m b hp hb
    have hx : b ≤ x := hb x (List.mem_cons_self x xs)
    have hxs : ∀ y ∈ xs, x + 32 ≤ y := (List.pairwise_cons.mp hp).1
    have hp' : xs.Pairwise (fun x y => x + 32 ≤ y) := (List.pairwise_cons.mp hp).2
    rw [List.countP_cons]
    match m with
    | 0 =>
      have h1 : ¬ (x < b + 32 * ((0:ℕ) : ℤ)) := by push_cast; omega
      have h2 : xs.countP (fun t => decide (t < b + 32 * ((0:ℕ) : ℤ))) = 0 := by
        rw [List.countP_eq_zero]
        intro y hy
        have := hxs y hy
        simp only [decide_eq_true_eq]
        push_cast
        omega
      simp only [h2, decide_eq_true_eq]
      rw [if_neg h1]
    | m + 1 =>
      have hrec : xs.countP (fun t => decide (t < b + 32 * ((m + 1 : ℕ) : ℤ))) ≤ m := by
        have harg : b + 32 * ((m + 1 : ℕ) : ℤ) = (b + 32) + 32 * (m : ℤ) := by
          push_cast; ring
        rw [harg]
        exact ih m (b + 32) hp' (fun y hy => by have := hxs y hy; omega)
      have hone : (if (decide (x < b + 32 * ((m + 1 : ℕ) : ℤ))) = true then 1 else 0) ≤ 1 := by
        split <;> omega
      omega

/-- Core throttle bound: a 32 ms-separated time list has at most 32
members in any 1-second window. -/
lemma pairwise_window_le (l : List ℤ) (a : ℤ)
    (h : l.Pairwise (fun x y => x + 32 ≤ y)) :
    l.countP (fun t => decide (a ≤ t ∧ t < a + 1000)) ≤ 32 := by
  have h1 : l.countP (fun t => decide (a ≤ t ∧ t < a + 1000)) ≤
      (l.filter (fun t => decide (a ≤ t))).countP (fun t => decide (t < a + 32 * ((32:ℕ) : ℤ))) := by
    rw [List.countP_filter]
    apply List.countP_mono_left
    intro x _ hx
    simp only [decide_eq_true_eq, Bool.and_eq_true] at hx ⊢
    push_cast
    omega
  have h2 : (l.filter (fun t => decide (a ≤ t))).countP
      (fun t => decide (t < a + 32 * ((32:ℕ) : ℤ))) ≤ 32 := by
    apply pairwise_countP_le
    · exact h.filter _
    · intro x hx
      have := List.mem_filter.mp hx
      simpa using this.2
  omega

/-- Two boolean prefixes of the same list compare: the shorter is a prefix
of the longer. -/
lemma isPrefixOf_of_le : ∀ (l p q : List Char), p.isPrefixOf l = true →
    q.isPrefixOf l = true → p.length ≤ q.length → p.isPrefixOf q = true := by
  intro l
  induction l with
  | nil =>
    intro p q hp _ _
    cases p with
    | nil => simp
    | cons a as => simp [List.isPrefixOf] at hp
  | cons c l ih =>
    intro p q hp hq hlen
    cases p with
    | nil => simp
    | cons a as =>
      cases q with
      | nil => simp at hlen
      | cons b bs =>
        simp only [List.isPrefixOf, Bool.and_eq_true, beq_iff_eq] at hp hq ⊢
        refine ⟨hp.1.trans hq.1.symm, ?_⟩
        exact ih as bs hp.2 hq.2 (by simpa using hlen)

/-- An address with the `/controller0` prefix does not have the `/hmd`
prefix. -/
lemma not_hmd_of_controller0 (address : List Char)
    (h : ("/controller0".toList).isPrefixOf address = true) :
    ("/hmd".toList).isPrefixOf address = false := by
  cases hx : ("/hmd".toList).isPrefixOf address with
  | false => rfl
  | true =>
    exact absurd (isPrefixOf_of_le address _ _ hx h (by decide)) (by decide)

/-- An address with the `/controller1` prefix does not have the `/hmd`
prefix. -/
lemma not_hmd_of_controller1 (address : List Char)
    (h : ("/controller1".toList).isPrefixOf address = true) :
    ("/hmd".toList).isPrefixOf address = false := by
  cases hx : ("/hmd".toList).isPrefixOf address with
  | false => rfl
  | true =>
    exact absurd (isPrefixOf_of_le address _ _ hx h (by decide)) (by decide)

/-- An address with the `/controller1` prefix does not have the
`/controller0` prefix. -/
lemma not_controller0_of_controller1 (address : List Char)
    (h : ("/controller1".toList).isPrefixOf address = true) :
    ("/controller0".toList).isPrefixOf address = false := by
  cases hx : ("/controller0".toList).isPrefixOf address with
  | false => rfl
  | true =>
    exact absurd (isPrefixOf_of_le address _ _ hx h (by decide)) (by decide)

/-- Any member of `processControllers` comes from some source at an index
below 2. -/
lemma processControllers_mem (q2e : Quat → V3) (s : Bool) :
    ∀ (srcs : List InputSource) (start : ℕ) (x : List WireMsg × DisplayUpdate),
      x ∈ processControllers q2e s start srcs →
      ∃ (k : ℕ) (src : InputSource), srcs[k]? = some src ∧ start + k < 2 ∧
        x = processController q2e s (start + k) src := by
  intro srcs
  induction srcs with
  | nil => intro start x hx; simp [processControllers] at hx
  | cons src rest ih =>
    intro start x hx
    rw [processControllers] at hx
    by_cases hlt : start < 2
    · rw [if_pos hlt] at hx
      rcases List.mem_cons.mp hx with rfl | hx
      · exact ⟨0, src, by simp, by omega, by simp⟩
      · obtain ⟨k, src', hk, hk2, rfl⟩ := ih (start + 1) x hx
        refine ⟨k + 1, src', by simpa using hk, by omega, ?_⟩
        rw [show start + (k + 1) = start + 1 + k from by omega]
    · rw [if_neg hlt] at hx
      simp at hx

/-- Conversely, the processing of the source at an index below 2 is a
member of `processControllers`. -/
lemma processControllers_mem_of (q2e : Quat → V3) (s : Bool) :
    ∀ (srcs : List InputSource) (start k : ℕ) (src : InputSource),
      srcs[k]? = some src → start + k < 2 →
      processController q2e s (start + k) src ∈ processControllers q2e s start srcs := by
  intro srcs
  induction srcs with
  | nil => intro start k src hk _; simp at hk
  | cons s0 rest ih =>
    intro start k src hk hlt
    rw [processControllers, if_pos (by omega)]
    match k, hk with
    | 0, hk =>
      simp only [List.getElem?_cons_zero, Option.some.injEq] at hk
      subst hk
      simp
    | k + 1, hk =>
      simp only [List.getElem?_cons_succ] at hk
      have hmem := ih (start + 1) k src hk (by omega)
      rw [show start + (k + 1) = start + 1 + k from by omega]
      exact List.mem_cons_of_mem _ hmem

/-- A controller with no grip space or no grip pose this tick produces no
message and the zeroed, unpressed display update. -/
lemma processController_absent (q2e : Quat → V3) (s : Bool) (i : ℕ) (src : InputSource)
    (h : src.hasGripSpace = false ∨ src.gripPose = none) :
    processController q2e s i src = ([], ⟨.ctrl i, (0,0,0), (0,0,0), some false⟩) := by
  obtain ⟨btns, hgs, gp⟩ := src
  rcases h with h | h
  · simp only at h
    subst h
    simp [processController]
  · simp only at h
    subst h
    cases hgs <;> simp [processController]

/-- Every message of `processController` carries the controller's address. -/
lemma processController_msgs_addr (q2e : Quat → V3) (s : Bool) (i : ℕ) (src : InputSource) :
    ∀ m ∈ (processController q2e s i src).1, m.address = controllerAddress i := by
  intro m hm
  obtain ⟨btns, hgs, gp⟩ := src
  cases hgs with
  | false => simp [processController] at hm
  | true =>
    cases gp with
    | none => simp [processController] at hm
    | some pq =>
      obtain ⟨pos, quat⟩ := pq
      simp only [processController] at hm
      cases s with
      | false => simp at hm
      | true =>
        simp only [if_true, List.mem_singleton] at hm
        subst hm
        rfl

/-- The two controller addresses are distinct, and distinct from the HMD
address. -/
lemma controllerAddress_ne (i j : ℕ) (hi : i < 2) (hj : j < 2) (hne : i ≠ j) :
    controllerAddress i ≠ controllerAddress j := by
  interval_cases i <;> interval_cases j <;> first | exact absurd rfl hne | decide

lemma hmdAddress_ne_controllerAddress (i : ℕ) (hi : i < 2) :
    hmdAddress ≠ controllerAddress i := by
  interval_cases i <;> decide

/-- `updateMessageStats` touches only the stats counters. -/
lemma updateMessageStats_fields (st : ServerState) (address : List Char) :
    (updateMessageStats st address).oscConnected = st.oscConnected ∧
    (updateMessageStats st address).oscPortExists = st.oscPortExists ∧
    (updateMessageStats st address).timers = st.timers := by
  unfold updateMessageStats
  split
  · exact ⟨rfl, rfl, rfl⟩
  · split
    · exact ⟨rfl, rfl, rfl⟩
    · exact ⟨rfl, rfl, rfl⟩

/-- `reconnectOSC (some A)` leaves every other device's fields alone. -/
lemma reconnectOSC_some_preserves (st : ServerState) (A B : DeviceType) (hBA : ¬ B = A) :
    (reconnectOSC (some A) st).oscConnected B = st.oscConnected B ∧
    (reconnectOSC (some A) st).oscPortExists B = st.oscPortExists B := by
  simp [reconnectOSC, closeDevice, hBA]

/-- The JS return value of a successful-OS `sendOSC` call is exactly the
channel-readiness test of the target device. -/
lemma sendOSC_none_result (st : ServerState) (address : List Char) (args : List JSVal) :
    (sendOSC st address args none).1 =
      (st.oscConnected (getDeviceTypeFromAddress address) &&
       st.oscPortExists (getDeviceTypeFromAddress address)) := by
  unfold sendOSC
  cases hc : (st.oscConnected (getDeviceTypeFromAddress address) &&
      st.oscPortExists (getDeviceTypeFromAddress address)) with
  | false => simp [hc]
  | true => simp [hc]

/-- Any `sendOSC` call aimed at device `A` leaves the channel fields of
every other device unchanged. -/
lemma sendOSC_preserves_other (st : ServerState) (address : List Char) (args : List JSVal)
    (sendErr : Option (List Char)) (B : DeviceType)
    (hBA : ¬ B = getDeviceTypeFromAddress address) :
    (sendOSC st address args sendErr).2.1.oscConnected B = st.oscConnected B ∧
    (sendOSC st address args sendErr).2.1.oscPortExists B = st.oscPortExists B := by
  unfold sendOSC
  cases hc : (st.oscConnected (getDeviceTypeFromAddress address) &&
      st.oscPortExists (getDeviceTypeFromAddress address)) with
  | false => simp [hc]
  | true =>
    cases sendErr with
    | none =>
      simp only [hc, Bool.not_true, Bool.false_eq_true, if_false]
      have h1 := updateMessageStats_fields
        { st with oscMessageCount := st.oscMessageCount + 1 } address
      simp [h1.1, h1.2.1]
    | some emsg =>
      simp only [hc, Bool.not_true, Bool.false_eq_true, if_false]
      by_cases h10 : 10 < st.oscErrorCount + 1
      · simp only [h10, if_pos]
        have h2 := reconnectOSC_some_preserves
          { st with oscErrorCount := st.oscErrorCount + 1, lastOSCError := some emsg }
          (getDeviceTypeFromAddress address) B hBA
        simpa using h2
      · simp [h10]

/-- The address field of a built wire message. -/
lemma sendOSCData_address (q2e : Quat → V3) (address : List Char) (position : V3)
    (orientation : Quat) (btnPressed : Bool) :
    (sendOSCData q2e address position orientation btnPressed).address = address := rfl

/-- A single controller emits at most one message per frame. -/
lemma processController_msgs_len (q2e : Quat → V3) (s : Bool) (i : ℕ) (src : InputSource) :
    (processController q2e s i src).1.length ≤ 1 := by
  obtain ⟨btns, hgs, gp⟩ := src
  cases hgs with
  | false => simp [processController]
  | true =>
    cases gp with
    | none => simp [processController]
    | some pq =>
      obtain ⟨pos, quat⟩ := pq
      cases s <;> simp [processController]

/-- With the gate closed, the controller loop emits no messages. -/
lemma processControllers_msgs_flat_false (q2e : Quat → V3) :
    ∀ (srcs : List InputSource) (start : ℕ),
      (processControllers q2e false start srcs).flatMap (fun x => x.1) = [] := by
  intro srcs
  induction srcs with
  | nil => intro start; rfl
  | cons src rest ih =>
    intro start
    rw [processControllers]
    by_cases h : start < 2
    · rw [if_pos h, List.flatMap_cons, ih (start + 1)]
      have hh : (processController q2e false start src).1 = [] := by
        obtain ⟨btns, hgs, gp⟩ := src
        cases hgs with
        | false => simp [processController]
        | true =>
          cases gp with
          | none => simp [processController]
          | some pq =>
            obtain ⟨pos, quat⟩ := pq
            simp [processController]
      rw [hh]
      rfl
    · rw [if_neg h]
      rfl

/-- Every message of the controller loop started at `start` bears the
address of some controller index in `[start, 2)`. -/
lemma processControllers_flat_addr (q2e : Quat → V3) (s : Bool) (srcs : List InputSource)
    (start : ℕ) :
    ∀ m ∈ (processControllers q2e s start srcs).flatMap (fun x => x.1),
      ∃ j, start ≤ j ∧ j < 2 ∧ m.address = controllerAddress j := by
  intro m hm
  obtain ⟨x, hx, hmx⟩ := List.mem_flatMap.mp hm
  obtain ⟨k, src', hk, hk2, rfl⟩ := processControllers_mem q2e s srcs start x hx
  exact ⟨start + k, Nat.le_add_right start k, hk2,
    processController_msgs_addr q2e s (start + k) src' m hmx⟩

/-- The controller loop emits at most one message per fixed address
(controller indices along the loop are pairwise distinct). -/
lemma processControllers_filter_addr (q2e : Quat → V3) (s : Bool) (addr : List Char) :
    ∀ (srcs : List InputSource) (start : ℕ),
      (((processControllers q2e s start srcs).flatMap (fun x => x.1)).filter
        (fun m => m.address == addr)).length ≤ 1 := by
  intro srcs
  induction srcs with
  | nil => intro start; simp [processControllers]
  | cons src rest ih =>
    intro start
    rw [processControllers]
    by_cases h : start < 2
    · rw [if_pos h, List.flatMap_cons, List.filter_append, List.length_append]
      by_cases haddr : addr = controllerAddress start
      · have htail : ((processControllers q2e s (start + 1) rest).flatMap
            (fun x => x.1)).filter (fun m => m.address == addr) = [] := by
          rw [List.filter_eq_nil_iff]
          intro m hm hbeq
          rw [beq_iff_eq] at hbeq
          obtain ⟨j, hj1, hj2, hmj⟩ := processControllers_flat_addr q2e s rest (start + 1) m hm
          rw [hmj, haddr] at hbeq
          exact controllerAddress_ne j start hj2 h (by omega) hbeq
        rw [htail]
        have hhead := le_trans
          (List.length_filter_le (fun m => m.address == addr) (processController q2e s start src).1)
          (processController_msgs_len q2e s start src)
        simpa using hhead
      · have hhead : ((processController q2e s start src).1).filter
            (fun m => m.address == addr) = [] := by
          rw [List.filter_eq_nil_iff]
          intro m hm hbeq
          rw [beq_iff_eq] at hbeq
          rw [processController_msgs_addr q2e s start src m hm] at hbeq
          exact haddr hbeq.symm
        rw [hhead]
        simpa using ih (start + 1)
    · rw [if_neg h]
      simp

/-- The messages of a frame, decomposed into the HMD part and the
controller part. -/
lemma renderXRFrame_msgs_decomp (q2e : Quat → V3) (st : ClientState) (f : FrameIn) :
    (renderXRFrame q2e st f).2.1 =
      hmdFrameMsgs q2e
        (st.oscEnabled && st.socketOpen &&
          decide (OSC_SEND_INTERVAL ≤ f.time - st.lastOSCSendTime)) f.viewerPose ++
      (processControllers q2e
        (st.oscEnabled && st.socketOpen &&
          decide (OSC_SEND_INTERVAL ≤ f.time - st.lastOSCSendTime))
        0 f.sources).flatMap (fun x => x.1) := by
  cases hpose : f.viewerPose with
  | none => simp [renderXRFrame, hmdFrameMsgs, hpose]
  | some pq =>
    obtain ⟨pos, quat⟩ := pq
    simp [renderXRFrame, hmdFrameMsgs, hpose]

/-- The HMD part contributes at most one message to any fixed address. -/
lemma hmd_msgs_filter_len (q2e : Quat → V3) (s : Bool) (pose : Option (V3 × Quat))
    (addr : List Char) :
    ((hmdFrameMsgs q2e s pose).filter (fun m => m.address == addr)).length ≤ 1 := by
  cases pose with
  | none => simp [hmdFrameMsgs]
  | some pq =>
    cases s with
    | false => simp [hmdFrameMsgs]
    | true =>
      have := List.length_filter_le (fun (m : WireMsg) => m.address == addr)
        [sendOSCData q2e hmdAddress pq.1 pq.2 false]
      simpa [hmdFrameMsgs] using this

/-- The HMD part contributes nothing to a non-HMD address. -/
lemma hmd_msgs_filter_nil (q2e : Quat → V3) (s : Bool) (pose : Option (V3 × Quat))
    (addr : List Char) (haddr : addr ≠ hmdAddress) :
    ((hmdFrameMsgs q2e s pose).filter (fun m => m.address == addr)) = [] := by
  rw [List.filter_eq_nil_iff]
  intro m hm hbeq
  rw [beq_iff_eq] at hbeq
  cases pose with
  | none => simp [hmdFrameMsgs] at hm
  | some pq =>
    cases s with
    | false => simp [hmdFrameMsgs] at hm
    | true =>
      simp [hmdFrameMsgs] at hm
      subst hm
      rw [sendOSCData_address] at hbeq
      exact haddr hbeq.symm

/-- Any one frame transmits at most one wire message per address: the HMD
message and the per-index controller messages all carry pairwise distinct
addresses. -/
lemma renderXRFrame_filter_le_one (q2e : Quat → V3) (st : ClientState) (f : FrameIn)
    (addr : List Char) :
    (((renderXRFrame q2e st f).2.1).filter (fun m => m.address == addr)).length ≤ 1 := by
  rw [renderXRFrame_msgs_decomp, List.filter_append, List.length_append]
  by_cases haddr : addr = hmdAddress
  · have hctrl : ((processControllers q2e
        (st.oscEnabled && st.socketOpen &&
          decide (OSC_SEND_INTERVAL ≤ f.time - st.lastOSCSendTime))
        0 f.sources).flatMap (fun x => x.1)).filter (fun m => m.address == addr) = [] := by
      rw [List.filter_eq_nil_iff]
      intro m hm hbeq
      rw [beq_iff_eq] at hbeq
      obtain ⟨j, hj1, hj2, hmj⟩ := processControllers_flat_addr q2e _ f.sources 0 m hm
      rw [hmj, haddr] at hbeq
      exact hmdAddress_ne_controllerAddress j hj2 hbeq.symm
    rw [hctrl]
    simpa using hmd_msgs_filter_len q2e _ f.viewerPose addr
  · rw [hmd_msgs_filter_nil q2e _ f.viewerPose addr haddr]
    simpa using processControllers_filter_addr q2e _ addr f.sources 0

/-- With the gate closed, a frame transmits nothing. -/
lemma renderXRFrame_msgs_gate_closed (q2e : Quat → V3) (st : ClientState) (f : FrameIn)
    (h : (st.oscEnabled && st.socketOpen &&
      decide (OSC_SEND_INTERVAL ≤ f.time - st.lastOSCSendTime)) = false) :
    (renderXRFrame q2e st f).2.1 = [] := by
  rw [renderXRFrame_msgs_decomp, h, processControllers_msgs_flat_false]
  cases f.viewerPose <;> simp [hmdFrameMsgs]

/-- With streaming enabled and the socket open, the time stamps of the
messages bearing any one fixed address in a frame-driven run form a
sublist of the gate opening times — for arbitrary frames, with any mix of
live streams. -/
lemma runFrames_filter_sublist_aux (q2e : Quat → V3) (addr : List Char) :
    ∀ (frames : List FrameIn) (last : ℤ),
      List.Sublist
        ((runFrames q2e ⟨true, true, last⟩ frames).flatMap
          (fun p => (p.2.filter (fun m => m.address == addr)).map (fun _ => p.1)))
        (sendTimes last (frames.map (fun f => f.time))) := by
  intro frames
  induction frames with
  | nil => intro last; simp [runFrames, sendTimes]
  | cons f fs ih =>
    intro last
    simp only [runFrames, List.flatMap_cons, List.map_cons]
    rw [sendTimes]
    have hstate : (renderXRFrame q2e ⟨true, true, last⟩ f).1 =
        ⟨true, true,
          if decide (OSC_SEND_INTERVAL ≤ f.time - last) = true then f.time else last⟩ := rfl
    by_cases hgate : OSC_SEND_INTERVAL ≤ f.time - last
    · rw [if_pos hgate]
      have hd : decide (OSC_SEND_INTERVAL ≤ f.time - last) = true := decide_eq_true hgate
      have hst' : (renderXRFrame q2e ⟨true, true, last⟩ f).1 = ⟨true, true, f.time⟩ := by
        rw [hstate, hd]
        simp
      rw [hst']
      have ihx := ih f.time
      cases hfl : ((renderXRFrame q2e ⟨true, true, last⟩ f).2.1.filter
          (fun m => m.address == addr)) with
      | nil =>
        simp only [List.map_nil, List.nil_append]
        exact List.Sublist.cons f.time ihx
      | cons m ms =>
        have hlen := renderXRFrame_filter_le_one q2e ⟨true, true, last⟩ f addr
        rw [hfl] at hlen
        have hms : ms = [] := by
          rw [List.length_cons] at hlen
          exact List.length_eq_zero.mp (by omega)
        subst hms
        simp only [List.map_cons, List.map_nil, List.singleton_append]
        exact List.Sublist.cons₂ f.time ihx
    · rw [if_neg hgate]
      have hd : decide (OSC_SEND_INTERVAL ≤ f.time - last) = false := decide_eq_false hgate
      have hst' : (renderXRFrame q2e ⟨true, true, last⟩ f).1 = ⟨true, true, last⟩ := by
        rw [hstate, hd]
        simp
      rw [hst', renderXRFrame_msgs_gate_closed q2e ⟨true, true, last⟩ f (by simpa using hd)]
      simpa using ih last

/-- Wrapper of `runFrames_filter_sublist_aux` for any enabled/open state. -/
lemma runFrames_filter_sublist (q2e : Quat → V3) (addr : List Char) (frames : List FrameIn)
    (st : ClientState) (hE : st.oscEnabled = true) (hO : st.socketOpen = true) :
    List.Sublist
      ((runFrames q2e st frames).flatMap
        (fun p => (p.2.filter (fun m => m.address == addr)).map (fun _ => p.1)))
      (sendTimes st.lastOSCSendTime (frames.map (fun f => f.time))) := by
  obtain ⟨e, o, last⟩ := st
  subst hE
  subst hO
  exact runFrames_filter_sublist_aux q2e addr frames last

/-! ## Claims -/

/-- C2 (amended): every published yaw/pitch/roll angle — `normalizeAngle`
of the converted Euler degrees, as placed at positions 3..5 (and the 0/1
button flag a controller message appends) of a `sendOSCData` wire
message — lies in the closed range [−180°, 180°], and the input angle 270°
normalizes to −90°.  (The original claim's half-open range (−180°, 180°]
fails: see the counterexample at −180°.) -/
theorem normalizeAngle_closed_range :
    (∀ a : ℚ, -180 ≤ normalizeAngle a ∧ normalizeAngle a ≤ 180) ∧
    normalizeAngle 270 = -90 ∧
    (∀ (q2e : Quat → V3) (address : List Char) (position : V3) (orientation : Quat)
      (btnPressed : Bool) (x : ℚ),
      x ∈ (sendOSCData q2e address position orientation btnPressed).args.drop 3 →
      -180 ≤ x ∧ x ≤ 180) := by
  refine ⟨fun a => ⟨normalizeAngle_ge a, normalizeAngle_le a⟩, normalizeAngle_270, ?_⟩
  intro q2e address position orientation btnPressed x hx
  simp only [sendOSCData] at hx
  by_cases hpc : ("/controller".toList).isPrefixOf address = true
  · simp only [hpc, if_true, List.cons_append, List.nil_append, List.drop_succ_cons,
      List.drop_zero] at hx
    rcases List.mem_cons.mp hx with rfl | hx
    · exact ⟨normalizeAngle_ge _, normalizeAngle_le _⟩
    rcases List.mem_cons.mp hx with rfl | hx
    · exact ⟨normalizeAngle_ge _, normalizeAngle_le _⟩
    rcases List.mem_cons.mp hx with rfl | hx
    · exact ⟨normalizeAngle_ge _, normalizeAngle_le _⟩
    rcases List.mem_cons.mp hx with rfl | hx
    · cases btnPressed <;> norm_num
    · simp at hx
  · rw [if_neg hpc] at hx
    simp only [List.drop_succ_cons, List.drop_zero] at hx
    rcases List.mem_cons.mp hx with rfl | hx
    · exact ⟨normalizeAngle_ge _, normalizeAngle_le _⟩
    rcases List.mem_cons.mp hx with rfl | hx
    · exact ⟨normalizeAngle_ge _, normalizeAngle_le _⟩
    rcases List.mem_cons.mp hx with rfl | hx
    · exact ⟨normalizeAngle_ge _, normalizeAngle_le _⟩
    · simp at hx

/-- C2 counterexample: the angle −180° is returned unchanged by
`normalizeAngle`, so the normalized output is not in the half-open range
(−180°, 180°] claimed by the spec (it is not strictly greater than −180). -/
theorem normalizeAngle_neg180_cex :
    normalizeAngle (-180) = -180 ∧ ¬ ((-180 : ℚ) < normalizeAngle (-180)) := by
  refine ⟨normalizeAngle_neg180, ?_⟩
  rw [normalizeAngle_neg180]
  exact lt_irrefl (-180 : ℚ)

/-- C2 witness: the range theorem applied to the yaw slot of a concrete
HMD message whose conversion lands on 270°. -/
theorem normalizeAngle_closed_range_witness :
    -180 ≤ normalizeAngle 270 ∧ normalizeAngle 270 ≤ 180 := by
  have hpc : ("/controller".toList).isPrefixOf hmdAddress = false := by decide
  refine normalizeAngle_closed_range.2.2 q2e270 hmdAddress (0, 0, 0) (0, 0, 0, 1) false
    (normalizeAngle 270) ?_
  simp only [sendOSCData, q2e270]
  rw [hpc]
  simp

/-- C3 (confirmed): `getDeviceTypeFromAddress` classifies by prefix —
`/hmd` to HMD, `/controller0` to CONTROLLER0, `/controller1` to
CONTROLLER1, anything else to HMD; in particular `/controller0/pose`
routes to CONTROLLER0 and `/unknown/pose` to HMD. -/
theorem address_routing_by_prefix :
    (∀ address : List Char, ("/hmd".toList).isPrefixOf address = true →
      getDeviceTypeFromAddress address = DeviceType.HMD) ∧
    (∀ address : List Char, ("/controller0".toList).isPrefixOf address = true →
      getDeviceTypeFromAddress address = DeviceType.CONTROLLER0) ∧
    (∀ address : List Char, ("/controller1".toList).isPrefixOf address = true →
      getDeviceTypeFromAddress address = DeviceType.CONTROLLER1) ∧
    (∀ address : List Char, ("/hmd".toList).isPrefixOf address = false →
      ("/controller0".toList).isPrefixOf address = false →
      ("/controller1".toList).isPrefixOf address = false →
      getDeviceTypeFromAddress address = DeviceType.HMD) ∧
    getDeviceTypeFromAddress ("/controller0/pose".toList) = DeviceType.CONTROLLER0 ∧
    getDeviceTypeFromAddress ("/unknown/pose".toList) = DeviceType.HMD := by
  refine ⟨?_, ?_, ?_, ?_, by decide, by decide⟩
  · intro address h
    unfold getDeviceTypeFromAddress
    rw [h]
    exact if_pos rfl
  · intro address h
    have hh := not_hmd_of_controller0 address h
    unfold getDeviceTypeFromAddress
    rw [hh, h]
    simp
  · intro address h
    have hh := not_hmd_of_controller1 address h
    have hc0 := not_controller0_of_controller1 address h
    unfold getDeviceTypeFromAddress
    rw [hh, hc0, h]
    simp
  · intro address h0 h1 h2
    unfold getDeviceTypeFromAddress
    rw [h0, h1, h2]
    simp

/-- C3 witness: the prefix rule applied at `/hmd/pose`. -/
theorem address_routing_by_prefix_witness :
    getDeviceTypeFromAddress ("/hmd/pose".toList) = DeviceType.HMD :=
  address_routing_by_prefix.1 ("/hmd/pose".toList) (by decide)

/-- C4 (confirmed): for a structurally valid message the router filters the
args down to those whose `parseFloat` is finite and proceeds with the
filtered subset — it never rejects the message for partially invalid
numerics; in particular `[1,2,"bad",4,5,6]` yields the 5-element list
`[1,2,4,5,6]`. -/
theorem router_filters_nonfinite_args :
    (∀ (s : List Char) (l : List JSVal), s ≠ [] →
      handleOSCMessage ⟨.str s, .arr l⟩ = some (s, l.filter isFiniteNumber)) ∧
    handleOSCMessage ⟨.str ("/hmd/pose".toList),
        .arr [.num 1, .num 2, .str ("bad".toList), .num 4, .num 5, .num 6]⟩ =
      some (("/hmd/pose".toList), [.num 1, .num 2, .num 4, .num 5, .num 6]) := by
  constructor
  · intro s l hs
    have hempty : s.isEmpty = false := by
      cases s with
      | nil => exact absurd rfl hs
      | cons c cs => rfl
    simp [handleOSCMessage, jsFalsy, isStringVal, strContent, hempty]
  · rfl

/-- C4 witness: the filtering rule applied at a concrete message. -/
theorem router_filters_nonfinite_args_witness :
    handleOSCMessage ⟨.str ("/x".toList), .arr [.num 3]⟩ =
      some (("/x".toList), ([JSVal.num 3].filter isFiniteNumber)) :=
  router_filters_nonfinite_args.1 ("/x".toList) [.num 3] (by decide)

/-- C10 (confirmed): a message whose address is the empty string is
dropped — the falsy check treats it exactly like a missing (undefined),
null, or non-string address. -/
theorem empty_address_dropped : ∀ (args : JSVal),
    handleOSCMessage ⟨.str [], args⟩ = none ∧
    handleOSCMessage ⟨.undef, args⟩ = none ∧
    handleOSCMessage ⟨.null, args⟩ = none ∧
    handleOSCMessage ⟨.num 7400, args⟩ = none := by
  intro args
  exact ⟨rfl, rfl, rfl, rfl⟩

/-- C5 (amended): the Device Channel Manager performs **no** arity check —
for a Ready channel, `sendOSC` encodes and transmits the filtered args
whatever their number, returning success; the datagram's arity always
equals the input arity.  (The claimed 6-or-7 protocol-violation check does
not exist in the code: see the counterexample.) -/
theorem sendOSC_no_arity_check (st : ServerState) (address : List Char)
    (args : List JSVal)
    (h : (st.oscConnected (getDeviceTypeFromAddress address) &&
          st.oscPortExists (getDeviceTypeFromAddress address)) = true) :
    (sendOSC st address args none).1 = true ∧
    (sendOSC st address args none).2.2 = some ⟨address, args.map coerceArg⟩ ∧
    (args.map coerceArg).length = args.length := by
  unfold sendOSC
  simp [h]

/-- C5 counterexample: a 5-argument `/hmd/pose` message (arity neither 6
nor 7) is transmitted unchanged with a success result — no protocol
violation is raised. -/
theorem sendOSC_arity5_transmitted_cex :
    (sendOSC stReady ("/hmd/pose".toList)
        [.num 1, .num 2, .num 3, .num 4, .num 5] none).1 = true ∧
    (sendOSC stReady ("/hmd/pose".toList)
        [.num 1, .num 2, .num 3, .num 4, .num 5] none).2.2 =
      some ⟨"/hmd/pose".toList,
        [.finite 1, .finite 2, .finite 3, .finite 4, .finite 5]⟩ ∧
    ([JSNum.finite 1, .finite 2, .finite 3, .finite 4, .finite 5].length ≠ 6 ∧
     [JSNum.finite 1, .finite 2, .finite 3, .finite 4, .finite 5].length ≠ 7) :=
  ⟨rfl, rfl, by decide, by decide⟩

/-- C5 witness: the no-arity-check theorem applied at a Ready channel and
a 1-argument controller message. -/
theorem sendOSC_no_arity_check_witness :
    (sendOSC stReady ("/controller0/pose".toList) [JSVal.num 1] none).1 = true ∧
    (sendOSC stReady ("/controller0/pose".toList) [JSVal.num 1] none).2.2 =
      some ⟨"/controller0/pose".toList, [JSVal.num 1].map coerceArg⟩ ∧
    ([JSVal.num 1].map coerceArg).length = [JSVal.num 1].length :=
  sendOSC_no_arity_check stReady ("/controller0/pose".toList) [JSVal.num 1] (by decide)

/-- C7 (amended): a `closed` event schedules exactly one reconnect attempt
after the fixed 3000 ms delay, for every state — so retries repeat
indefinitely with no backoff growth and no retry cap; calling
`initWebSocket` while the socket is OPEN or CONNECTING changes nothing (no
second connection).  A `failed` (error) event, however, schedules **no**
reconnect itself (see the counterexample): only the close event that
follows does. -/
theorem ws_reconnect_on_close_only :
    (∀ st : ClientNet, (wsOnClose st).reconnectTimers = st.reconnectTimers ++ [3000]) ∧
    (∀ st : ClientNet, wsOnError st = st) ∧
    (∀ (st : ClientNet) (s : WSReadyState), st.socket = some s →
      (s = WSReadyState.OPEN ∨ s = WSReadyState.CONNECTING) →
      initWebSocket st = st) := by
  refine ⟨fun st => rfl, fun st => rfl, ?_⟩
  intro st s hs hor
  unfold initWebSocket
  cases hurl : st.serverUrl with
  | none => rfl
  | some u =>
    rw [hs]
    rcases hor with rfl | rfl <;> simp

/-- C7 counterexample: an error (`failed`) event on an open transport
schedules zero reconnect attempts, not exactly one. -/
theorem ws_error_no_reconnect_cex :
    (wsOnError ⟨some ("wss://h:8443".toList), some WSReadyState.OPEN,
      []⟩).reconnectTimers.length = 0 ∧ (0 : ℕ) ≠ 1 := by
  exact ⟨rfl, by decide⟩

/-- C7 witness: the no-second-connection clause applied at an OPEN socket. -/
theorem ws_reconnect_on_close_only_witness :
    initWebSocket ⟨some ("wss://h:8443".toList), some WSReadyState.OPEN, [3000]⟩ =
      ⟨some ("wss://h:8443".toList), some WSReadyState.OPEN, [3000]⟩ :=
  ws_reconnect_on_close_only.2.2 _ WSReadyState.OPEN rfl (Or.inl rfl)

/-- C1 (amended): the 32 ms minimum-interval throttle exists only in the
frame-driven regime, and what it bounds there is the per-stream wire rate:
with streaming enabled and the transport open, for **arbitrary** frames —
any tick rate, any mix of live HMD/controller streams — the number of
wire messages bearing any one fixed address transmitted in any 1-second
window is at most 32, because a frame transmits only when the elapsed
time since the last transmitting frame is at least `OSC_SEND_INTERVAL`,
and a frame transmits at most one message per address.  (The aggregate
across the three streams is not bounded by 32 — a gate-opening frame
sends one message per live stream — and the clock-driven sampler performs
no minimum-interval check at all: the counterexample exhibits both.) -/
theorem throttle_frame_regime_bound (q2e : Quat → V3) (st : ClientState)
    (frames : List FrameIn) (hE : st.oscEnabled = true) (hO : st.socketOpen = true)
    (addr : List Char) (a : ℤ) :
    addrTimedCount (runFrames q2e st frames) addr a ≤ 32 := by
  unfold addrTimedCount
  exact le_trans
    ((runFrames_filter_sublist q2e addr frames st hE hO).countP_le _)
    (pairwise_window_le _ a (sendTimes_pairwise _ _))

/-- C1 counterexample, both regimes, streaming enabled and transport open.
Clock-driven: 33 ticks 16 ms apart (62.5 Hz > 30 Hz) with the HMD marker
present transmit 33 wire messages inside [0 ms, 1000 ms) — there is no
minimum-interval check.  Frame-driven: 11 frames 32 ms apart (31.25 Hz >
30 Hz) with three live streams all pass the throttle gate and transmit
3 messages each — 33 aggregate wire messages inside [0 ms, 1000 ms), so
the claimed aggregate bound of 32 fails in the frame regime too (it holds
only per stream). -/
theorem wire_rate_bound_cex :
    (cexSt.oscEnabled = true ∧ cexSt.socketOpen = true) ∧
    (timedCount (runClock q2e0 cexSt cexTicks) 0 = 33 ∧
     ¬ (timedCount (runClock q2e0 cexSt cexTicks) 0 ≤ 32)) ∧
    (timedCount (runFrames q2e0 cexSt cexFramesMulti) 0 = 33 ∧
     ¬ (timedCount (runFrames q2e0 cexSt cexFramesMulti) 0 ≤ 32)) := by decide

/-- C1 witness: the per-stream frame-regime bound applied to the concrete
multi-stream run (11 frames, three live streams each) for the
CONTROLLER0 stream. -/
theorem throttle_frame_regime_bound_witness :
    addrTimedCount (runFrames q2e0 cexSt cexFramesMulti) ("/controller0/pose".toList) 0 ≤ 32 :=
  throttle_frame_regime_bound q2e0 cexSt cexFramesMulti rfl rfl
    ("/controller0/pose".toList) 0

/-- C6 (amended): a controller with no live grip pose for the current
frame drives the display to the known not-tracked value — position zero
vector, zero rotation, button shown "Released" — but **no** wire sample is
forwarded for that controller this tick: on the wire the controller is
skipped (the claimed `(0,0,0, 0,0,0, 0)` message is never sent — see the
counterexample). -/
theorem absent_grip_display_only (q2e : Quat → V3) (st : ClientState) (f : FrameIn)
    (i : ℕ) (src : InputSource) (hi : f.sources[i]? = some src) (hlt : i < 2)
    (habs : src.hasGripSpace = false ∨ src.gripPose = none) :
    (⟨DispId.ctrl i, (0,0,0), (0,0,0), some false⟩ : DisplayUpdate) ∈
      (renderXRFrame q2e st f).2.2 ∧
    buttonText false = "Released".toList ∧
    ∀ m ∈ (renderXRFrame q2e st f).2.1, m.address ≠ controllerAddress i := by
  refine ⟨?_, rfl, ?_⟩
  · have hmem := processControllers_mem_of q2e
      (st.oscEnabled && st.socketOpen &&
        decide (OSC_SEND_INTERVAL ≤ f.time - st.lastOSCSendTime))
      f.sources 0 i src hi (by omega)
    rw [Nat.zero_add, processController_absent _ _ _ _ habs] at hmem
    have hd := List.mem_map_of_mem (fun x => x.2) hmem
    simp only [renderXRFrame]
    exact List.mem_append.mpr (Or.inl (List.mem_append.mpr (Or.inr hd)))
  · intro m hm
    simp only [renderXRFrame] at hm
    rcases List.mem_append.mp hm with hm1 | hm2
    · have haddr : m.address = hmdAddress := by
        cases hpose : f.viewerPose with
        | none => rw [hpose] at hm1; simp at hm1
        | some pq =>
          obtain ⟨pos, quat⟩ := pq
          rw [hpose] at hm1
          simp only at hm1
          split at hm1
          · simp only [List.mem_singleton] at hm1
            subst hm1
            rfl
          · simp at hm1
      rw [haddr]
      exact hmdAddress_ne_controllerAddress i hlt
    · obtain ⟨x, hx, hmx⟩ := List.mem_flatMap.mp hm2
      obtain ⟨k, src', hk, hk2, rfl⟩ := processControllers_mem q2e _ f.sources 0 x hx
      have haddr := processController_msgs_addr q2e _ (0 + k) src' m hmx
      by_cases hki : k = i
      · subst hki
        rw [hi] at hk
        injection hk with hk
        subst hk
        rw [processController_absent _ _ _ _ habs] at hmx
        simp at hmx
      · rw [haddr, Nat.zero_add]
        exact controllerAddress_ne k i (by omega) hlt hki

/-- C6 counterexample: a concrete frame (t = 100, throttle gate open,
HMD pose present, controller 0 has a grip space but no grip pose this
tick): exactly one wire message leaves — the HMD one — and none is
addressed to `/controller0/pose`; the display nonetheless shows the
zeroed pose with "Released".  The claimed forwarding of an absent-pose
`(0,0,0, 0,0,0, 0)` sample does not happen. -/
theorem absent_grip_no_wire_cex :
    ((renderXRFrame q2e0 cexSt cexFrame).2.1).length = 1 ∧
    ((renderXRFrame q2e0 cexSt cexFrame).2.1).all
      (fun m => m.address ≠ controllerAddress 0) = true ∧
    (⟨DispId.ctrl 0, (0,0,0), (0,0,0), some false⟩ : DisplayUpdate) ∈
      (renderXRFrame q2e0 cexSt cexFrame).2.2 ∧
    buttonText false = "Released".toList := by decide

/-- C6 witness: the amended theorem applied at the concrete frame. -/
theorem absent_grip_display_only_witness :
    (⟨DispId.ctrl 0, (0,0,0), (0,0,0), some false⟩ : DisplayUpdate) ∈
      (renderXRFrame q2e0 cexSt cexFrame).2.2 ∧
    buttonText false = "Released".toList ∧
    ∀ m ∈ (renderXRFrame q2e0 cexSt cexFrame).2.1, m.address ≠ controllerAddress 0 :=
  absent_grip_display_only q2e0 cexSt cexFrame 0 ⟨[], true, none⟩ (by decide) (by decide)
    (Or.inr rfl)

/-- C8 (confirmed): a UDP fault event on a device's port (the `error`
event, e.g. destination unreachable) makes that device's channel state
disconnected and schedules exactly one `reconnectOSC` for that device
after the fixed 5000 ms delay; and when a device's channel is not Ready,
`sendOSC` returns failure with the state untouched — nothing is thrown,
nothing is buffered.  (No reply is ever produced toward the capture
client: the WebSocket handler only logs the failure.) -/
theorem udp_error_state_and_drop :
    (∀ (st : ServerState) (d : DeviceType) (emsg : List Char),
      (onOscError st d emsg).oscConnected d = false ∧
      (onOscError st d emsg).timers = st.timers ++ [(5000, ServerTimer.reconnectDev d)]) ∧
    (∀ (st : ServerState) (address : List Char) (args : List JSVal)
      (sendErr : Option (List Char)),
      (st.oscConnected (getDeviceTypeFromAddress address) &&
       st.oscPortExists (getDeviceTypeFromAddress address)) = false →
      sendOSC st address args sendErr = (false, st, none)) := by
  constructor
  · intro st d emsg
    exact ⟨by simp [onOscError], rfl⟩
  · intro st address args sendErr h
    simp only [sendOSC]
    rw [h]
    rfl

/-- C8 witness: a send on a down channel drops without state change. -/
theorem udp_error_state_and_drop_witness :
    sendOSC stDown ("/controller0/pose".toList) [JSVal.num 1] none = (false, stDown, none) :=
  udp_error_state_and_drop.2 stDown ("/controller0/pose".toList) [JSVal.num 1] none
    (by decide)

/-- C9 (amended): each single failure event on device A's channel — error
event, close event, `reconnectOSC`, or a `sendOSC` aimed at A (with any
OS outcome) — leaves device B's connected flag and port unchanged, and
leaves the success of a subsequent OS-successful send on B's channel
unchanged.  However, the error counter is shared across devices, so a
run of failures on A changes how B's **own** later send failure is
handled (immediate teardown once the shared count exceeds 10) — the
unqualified "never affects another device's state transitions" is false;
see the counterexample. -/
theorem channel_field_isolation (st : ServerState) (A B : DeviceType) (hne : A ≠ B)
    (emsg : List Char) :
    ((onOscError st A emsg).oscConnected B = st.oscConnected B ∧
     (onOscError st A emsg).oscPortExists B = st.oscPortExists B) ∧
    ((onOscClose st A).oscConnected B = st.oscConnected B ∧
     (onOscClose st A).oscPortExists B = st.oscPortExists B) ∧
    ((reconnectOSC (some A) st).oscConnected B = st.oscConnected B ∧
     (reconnectOSC (some A) st).oscPortExists B = st.oscPortExists B) ∧
    (∀ (address : List Char) (args : List JSVal) (sendErr : Option (List Char)),
      getDeviceTypeFromAddress address = A →
      ((sendOSC st address args sendErr).2.1.oscConnected B = st.oscConnected B ∧
       (sendOSC st address args sendErr).2.1.oscPortExists B = st.oscPortExists B ∧
       ∀ (addressB : List Char) (argsB : List JSVal),
         getDeviceTypeFromAddress addressB = B →
         (sendOSC ((sendOSC st address args sendErr).2.1) addressB argsB none).1 =
           (sendOSC st addressB argsB none).1)) := by
  have hBA : ¬ B = A := fun h => hne h.symm
  refine ⟨⟨by simp [onOscError, hBA], rfl⟩, ⟨by simp [onOscClose, hBA], rfl⟩,
    reconnectOSC_some_preserves st A B hBA, ?_⟩
  intro address args sendErr hdA
  have hpres := sendOSC_preserves_other st address args sendErr B (by rw [hdA]; exact hBA)
  refine ⟨hpres.1, hpres.2, ?_⟩
  intro addressB argsB hdB
  rw [sendOSC_none_result, sendOSC_none_result, hdB, hpres.1, hpres.2]

/-- C9 counterexample: the same single HMD send failure is applied to the
same initial all-Ready server state in two runs; run A is preceded by ten
CONTROLLER0 send failures, run B by nothing.  In run A the shared error
count reaches 11 > 10 and HMD's channel is torn down (port nulled,
disconnected); in run B it is not.  Failure events on CONTROLLER0's
channel therefore changed HMD's state transition. -/
theorem shared_error_count_cex :
    c9runA.oscPortExists DeviceType.HMD = false ∧
    c9runA.oscConnected DeviceType.HMD = false ∧
    c9runB.oscPortExists DeviceType.HMD = true ∧
    c9runB.oscConnected DeviceType.HMD = true := by decide

/-- C9 witness: per-event isolation applied at a concrete error event on
CONTROLLER0 observed from HMD. -/
theorem channel_field_isolation_witness :
    (onOscError stReady DeviceType.CONTROLLER0 ("boom".toList)).oscConnected
      DeviceType.HMD = stReady.oscConnected DeviceType.HMD :=
  (channel_field_isolation stReady DeviceType.CONTROLLER0 DeviceType.HMD (by decide)
    ("boom".toList)).1.1

end WebXRToOSC
